import Mathlib

/-!
Verification development for the clawdbot-overlay payload codec, admission
rules and UTXO-indexed catalog.  The definitions below are shallow embeddings
of the TypeScript sources:

* `src/src/topic-managers/ClawdbotServicesTopicManager.ts` (validating variant)
* `src/src/lookup-services/ClawdbotServiceLookupService.ts`
* `src/src/lookup-services/ClawdbotAgentLookupService.ts`
* `src/dist/lookup-services/ClawdbotServiceLookupService.js` (dedup variant)
* `src/dist/topic-managers/ClawdbotServicesTopicManager.js` (PUSHDATA4 decoder)
* client `buildOpReturnScript` (src/unnamed/part_005)

Bytes are modelled as `List Nat` (each entry < 256 in practice), scripts as
lists of chunks `{op, data?}` mirroring the SDK chunk shape, and the SQL
tables as lists of rows in insertion order.
-/

set_option maxRecDepth 100000

namespace Clawdbot

/-- ASCII bytes of a string (all strings used by the protocol are ASCII, where
UTF-8 bytes and code points coincide). -/
def strBytes (s : String) : List Nat := s.data.map Char.toNat

/-- Build a string back from byte values (each byte becomes one character;
faithful to `TextDecoder` on ASCII input, which is the only case the
protocol and the concrete inputs below exercise). -/
def strOfBytes (bs : List Nat) : String := String.mk (bs.map Char.ofNat)

/-- The fixed protocol identifier `PROTOCOL_ID` from `types.ts`. -/
def PROTOCOL_ID : String := "clawdbot-overlay-v1"

/-- UTF-8 bytes of the protocol identifier (`PROTOCOL_PREFIX` in `types.ts`). -/
def protocolBytes : List Nat := strBytes PROTOCOL_ID

/-- One hexadecimal digit, as accepted by the `[0-9a-fA-F]` character class. -/
def isHexDigit (c : Char) : Bool :=
  (48 ≤ c.toNat && c.toNat ≤ 57) || (97 ≤ c.toNat && c.toNat ≤ 102) ||
    (65 ≤ c.toNat && c.toNat ≤ 70)

/-- The anchored identity-key pattern of the topic manager,
`/^[0-9a-fA-F]{66}$/`: exactly 66 hex characters. -/
def isHex66 (s : String) : Bool :=
  s.data.length == 66 && s.data.all isHexDigit

-- ---------------------------------------------------------------------------
--  JSON values
-- ---------------------------------------------------------------------------

/-- JSON values as produced by the host language's `JSON.parse`. -/
inductive Json where
  | null : Json
  | bool (b : Bool) : Json
  | num (n : Int) : Json
  | str (s : String) : Json
  | arr (elems : List Json) : Json
  | obj (members : List (String × Json)) : Json
deriving Repr

/-- JavaScript truthiness of a JSON value (`!payload.pricing` check). -/
def jsTruthy : Json → Bool
  | .null => false
  | .bool b => b
  | .num n => n != 0
  | .str s => s != ""
  | .arr _ => true
  | .obj _ => true

/-- Property access `v[k]` on a parsed JSON value: defined only on objects,
taking the last binding for duplicate keys (as `JSON.parse` does). -/
def jget (v : Json) (k : String) : Option Json :=
  match v with
  | .obj ms => (ms.reverse.find? (fun m => m.1 == k)).map (fun m => m.2)
  | _ => none

/-- String field projection, `undefined`/mistyped mapped to `none`. -/
def asStr : Option Json → Option String
  | some (.str s) => some s
  | _ => none

/-- Numeric field projection, `undefined`/mistyped mapped to `none`. -/
def asNum : Option Json → Option Int
  | some (.num n) => some n
  | _ => none

-- ---------------------------------------------------------------------------
--  JSON parsing (modelled external behaviour)
-- ---------------------------------------------------------------------------

/-- Whitespace bytes skipped by the JSON grammar. -/
def isJsonWs (b : Nat) : Bool := b == 32 || b == 9 || b == 10 || b == 13

def skipWs (bs : List Nat) : List Nat := bs.dropWhile isJsonWs

def isDigit (b : Nat) : Bool := 48 ≤ b && b ≤ 57

/-- Parse the body of a JSON string literal (after the opening quote),
returning the accumulated characters and the remainder after the closing
quote.  Handles the simple escapes; `\\u` escapes are not needed by any
input in this development. -/
def parseStrBody : List Nat → Option (List Char × List Nat)
  | [] => none
  | 34 :: rest => some ([], rest)
  | 92 :: e :: rest => do
    let c ←
      if e == 34 then some (Char.ofNat 34)
      else if e == 92 then some (Char.ofNat 92)
      else if e == 47 then some (Char.ofNat 47)
      else if e == 110 then some (Char.ofNat 10)
      else if e == 116 then some (Char.ofNat 9)
      else if e == 114 then some (Char.ofNat 13)
      else if e == 98 then some (Char.ofNat 8)
      else if e == 102 then some (Char.ofNat 12)
      else none
    let (cs, rest') ← parseStrBody rest
    some (c :: cs, rest')
  | b :: rest => do
    let (cs, rest') ← parseStrBody rest
    some (Char.ofNat b :: cs, rest')

/-- Parse a run of decimal digits into a natural number (most significant
first), returning the value and the remainder.  Fails on an empty run. -/
def parseDigits (acc : Nat) (seen : Bool) : List Nat → Option (Nat × List Nat)
  | [] => if seen then some (acc, []) else none
  | b :: rest =>
    if isDigit b then parseDigits (acc * 10 + (b - 48)) true rest
    else if seen then some (acc, b :: rest) else none

mutual

/-- Fuel-driven recursive-descent JSON value parser.

Modelled from the spec: this stands in for the host `JSON.parse` (external
library code).  Numbers are restricted to integers — every numeric field in
the on-chain schemas (`pricing.amountSats`) is integral — and `\\u` escapes
are rejected; neither restriction is exercised by any concrete input or any
quantified statement below. -/
def parseVal : Nat → List Nat → Option (Json × List Nat)
  | 0, _ => none
  | fuel + 1, bs =>
    match skipWs bs with
    | 110 :: 117 :: 108 :: 108 :: rest => some (.null, rest)
    | 116 :: 114 :: 117 :: 101 :: rest => some (.bool true, rest)
    | 102 :: 97 :: 108 :: 115 :: 101 :: rest => some (.bool false, rest)
    | 34 :: rest =>
      (match parseStrBody rest with
       | some (cs, rest') => some (.str (String.mk cs), rest')
       | none => none)
    | 45 :: rest =>
      (match parseDigits 0 false rest with
       | some (n, rest') => some (.num (-(n : Int)), rest')
       | none => none)
    | 123 :: rest =>
      (match skipWs rest with
       | 125 :: rest' => some (.obj [], rest')
       | other =>
         match parseMembers fuel other with
         | some (ms, rest') => some (.obj ms, rest')
         | none => none)
    | 91 :: rest =>
      (match skipWs rest with
       | 93 :: rest' => some (.arr [], rest')
       | other =>
         match parseElems fuel other with
         | some (es, rest') => some (.arr es, rest')
         | none => none)
    | b :: rest =>
      if isDigit b then
        match parseDigits 0 false (b :: rest) with
        | some (n, rest') => some (.num (n : Int), rest')
        | none => none
      else none
    | [] => none

/-- Parse one or more `"key": value` members separated by commas, up to and
including the closing brace. -/
def parseMembers : Nat → List Nat → Option (List (String × Json) × List Nat)
  | 0, _ => none
  | fuel + 1, bs =>
    match skipWs bs with
    | 34 :: rest =>
      (match parseStrBody rest with
       | some (cs, rest1) =>
         (match skipWs rest1 with
          | 58 :: rest2 =>
            (match parseVal fuel rest2 with
             | some (v, rest3) =>
               (match skipWs rest3 with
                | 44 :: rest4 =>
                  (match parseMembers fuel rest4 with
                   | some (ms, rest5) => some ((String.mk cs, v) :: ms, rest5)
                   | none => none)
                | 125 :: rest4 => some ([(String.mk cs, v)], rest4)
                | _ => none)
             | none => none)
          | _ => none)
       | none => none)
    | _ => none

/-- Parse one or more array elements separated by commas, up to and including
the closing bracket. -/
def parseElems : Nat → List Nat → Option (List Json × List Nat)
  | 0, _ => none
  | fuel + 1, bs =>
    match parseVal fuel bs with
    | some (v, rest) =>
      (match skipWs rest with
       | 44 :: rest' =>
         (match parseElems fuel rest' with
          | some (es, rest'') => some (v :: es, rest'')
          | none => none)
       | 93 :: rest' => some ([v], rest')
       | _ => none)
    | none => none

end

/-- `JSON.parse` on raw push bytes: parse one value and require only trailing
whitespace after it. -/
def jsonParse (bs : List Nat) : Option Json :=
  match parseVal (bs.length + 1) bs with
  | some (v, rest) => if skipWs rest = [] then some v else none
  | none => none

-- ---------------------------------------------------------------------------
--  Scripts and pushdata extraction
-- ---------------------------------------------------------------------------

/-- One script chunk as exposed by the SDK parser: an opcode and, for push
chunks, the pushed bytes. -/
structure Chunk where
  op : Nat
  data : Option (List Nat)
deriving DecidableEq, Repr

/-- A locking script, as a list of chunks. -/
structure Script where
  chunks : List Chunk
deriving DecidableEq, Repr

/-- `OP.OP_RETURN` (0x6a). -/
def OPRETURN : Nat := 106

/-- The pushdata stream loop of
`ClawdbotServiceLookupService.extractOpReturnPushes` (src and dist copies are
identical): a direct length 1..75, `0x4c` with a 1-byte length, `0x4d` with a
2-byte little-endian length; any other leading byte stops the loop.  Slices
are clamped to the remaining buffer as `Array.prototype.slice` clamps, and a
missing length byte reads as 0 (`blob[pos++] ?? 0`). -/
def parsePushStream : List Nat → List (List Nat)
  | [] => []
  | op :: rest =>
    if 1 ≤ op ∧ op ≤ 75 then
      rest.take op :: parsePushStream (rest.drop op)
    else if op = 76 then
      (rest.tail.take (rest.headD 0)) :: parsePushStream (rest.tail.drop (rest.headD 0))
    else if op = 77 then
      (rest.tail.tail.take (rest.headD 0 + rest.tail.headD 0 * 256)) ::
        parsePushStream (rest.tail.tail.drop (rest.headD 0 + rest.tail.headD 0 * 256))
    else []
termination_by bs => bs.length
decreasing_by
  all_goals simp [List.length_drop, List.length_tail]
  all_goals omega

/-- The pushdata stream loop of the built topic manager
(`dist/topic-managers/ClawdbotServicesTopicManager.js`), which additionally
recognises `0x4e` (PUSHDATA4) with a 4-byte little-endian length and clamps
explicitly via `Math.min`. -/
def parsePushStreamDist : List Nat → List (List Nat)
  | [] => []
  | op :: rest =>
    if 1 ≤ op ∧ op ≤ 75 then
      rest.take op :: parsePushStreamDist (rest.drop op)
    else if op = 76 then
      (rest.tail.take (rest.headD 0)) :: parsePushStreamDist (rest.tail.drop (rest.headD 0))
    else if op = 77 then
      (rest.tail.tail.take (rest.headD 0 + rest.tail.headD 0 * 256)) ::
        parsePushStreamDist (rest.tail.tail.drop (rest.headD 0 + rest.tail.headD 0 * 256))
    else if op = 78 then
      (rest.tail.tail.tail.tail.take
          (rest.headD 0 + rest.tail.headD 0 * 256 + rest.tail.tail.headD 0 * 65536 +
            rest.tail.tail.tail.headD 0 * 16777216)) ::
        parsePushStreamDist (rest.tail.tail.tail.tail.drop
          (rest.headD 0 + rest.tail.headD 0 * 256 + rest.tail.tail.headD 0 * 65536 +
            rest.tail.tail.tail.headD 0 * 16777216))
    else []
termination_by bs => bs.length
decreasing_by
  all_goals simp [List.length_drop, List.length_tail]
  all_goals omega

/-- `ClawdbotServiceLookupService.extractOpReturnPushes`: with 4 or more
chunks behind the `OP_FALSE OP_RETURN` prefix, collect the data of every data
chunk; with exactly two chunks whose second carries a coalesced blob,
re-parse the blob as a pushdata stream and require at least two pushes. -/
def extractOpReturnPushes (s : Script) : Option (List (List Nat)) :=
  match s.chunks with
  | c0 :: c1 :: c2 :: c3 :: rest =>
    if c0.op = 0 ∧ c1.op = OPRETURN then
      some ((c2 :: c3 :: rest).filterMap (fun c => c.data))
    else none
  | [c0, c1] =>
    if c0.op = 0 ∧ c1.op = OPRETURN then
      match c1.data with
      | some blob =>
        if 2 ≤ (parsePushStream blob).length then some (parsePushStream blob) else none
      | none => none
    else none
  | _ => none

/-- `extractOpReturnPushes` of the built topic manager: same structure, but
the coalesced-blob path uses the PUSHDATA4-aware stream parser. -/
def extractOpReturnPushesDist (s : Script) : Option (List (List Nat)) :=
  match s.chunks with
  | c0 :: c1 :: c2 :: c3 :: rest =>
    if c0.op = 0 ∧ c1.op = OPRETURN then
      some ((c2 :: c3 :: rest).filterMap (fun c => c.data))
    else none
  | [c0, c1] =>
    if c0.op = 0 ∧ c1.op = OPRETURN then
      match c1.data with
      | some blob =>
        if 2 ≤ (parsePushStreamDist blob).length then some (parsePushStreamDist blob)
        else none
      | none => none
    else none
  | _ => none

-- ---------------------------------------------------------------------------
--  Payload parsing and validation
-- ---------------------------------------------------------------------------

/-- `ClawdbotServiceLookupService.parseServiceFromScript`: extract the pushes,
require at least two, compare the first against the protocol identifier
(byte-for-byte, which is what the `TextDecoder`-then-string-equality check
amounts to on the fixed ASCII identifier), JSON-parse the second and require
`type === 'service'`. -/
def parseServiceFromScript (s : Script) : Option Json :=
  match extractOpReturnPushes s with
  | none => none
  | some pushes =>
    if pushes.length < 2 then none
    else
      match pushes with
      | p0 :: p1 :: _ =>
        if p0 = protocolBytes then
          match jsonParse p1 with
          | some payload =>
            (match jget payload "type" with
             | some (.str t) => if t = "service" then some payload else none
             | _ => none)
          | none => none
        else none
      | _ => none

/-- `ClawdbotAgentLookupService.parseIdentityFromScript`: at least 4 chunks,
`OP_FALSE OP_RETURN` prefix, protocol push, JSON push with
`type === 'identity'`.  No further schema validation is performed. -/
def parseIdentityFromScript (s : Script) : Option Json :=
  match s.chunks with
  | c0 :: c1 :: c2 :: c3 :: _ =>
    if c0.op = 0 ∧ c1.op = OPRETURN then
      match c2.data with
      | some proto =>
        if proto = protocolBytes then
          match c3.data with
          | some pb =>
            (match jsonParse pb with
             | some payload =>
               (match jget payload "type" with
                | some (.str t) => if t = "identity" then some payload else none
                | _ => none)
             | none => none)
          | none => none
        else none
      | none => none
    else none
  | _ => none

/-- The required-field checks of
`ClawdbotServicesTopicManager.parseServiceOutput` (validating variant,
src lines 47–62), applied to the parsed JSON payload.  Note that
`pricing.model` is only required to be a string (`typeof ... !== 'string'`);
the empty string passes. -/
def validateServicePayload (payload : Json) : Option Json :=
  match jget payload "protocol" with
  | some (.str pr) =>
    if pr ≠ PROTOCOL_ID then none
    else
      match jget payload "type" with
      | some (.str ty) =>
        if ty ≠ "service" then none
        else
          match jget payload "identityKey" with
          | some (.str ik) =>
            if ¬ isHex66 ik then none
            else
              match jget payload "serviceId" with
              | some (.str sid) =>
                if sid = "" then none
                else
                  match jget payload "name" with
                  | some (.str nm) =>
                    if nm = "" then none
                    else
                      match jget payload "pricing" with
                      | some pricing =>
                        if ¬ jsTruthy pricing then none
                        else
                          match jget pricing "model" with
                          | some (.str _) =>
                            (match jget pricing "amountSats" with
                             | some (.num amt) =>
                               if amt < 0 then none
                               else
                                 match jget payload "timestamp" with
                                 | some (.str _) => some payload
                                 | _ => none
                             | _ => none)
                          | _ => none
                      | none => none
                  | _ => none
              | _ => none
          | _ => none
      | _ => none
  | _ => none

/-- `ClawdbotServicesTopicManager.parseServiceOutput` (validating variant):
at least 4 chunks, `OP_FALSE OP_RETURN` prefix, protocol push, JSON push, then
the full required-field validation. -/
def parseServiceOutput (s : Script) : Option Json :=
  match s.chunks with
  | c0 :: c1 :: c2 :: c3 :: _ =>
    if c0.op = 0 ∧ c1.op = OPRETURN then
      match c2.data with
      | some proto =>
        if proto = protocolBytes then
          match c3.data with
          | some pb =>
            (match jsonParse pb with
             | some payload => validateServicePayload payload
             | none => none)
          | none => none
        else none
      | none => none
    else none
  | _ => none

-- ---------------------------------------------------------------------------
--  JSON printing (JSON.stringify, for the serialized channel/capability columns)
-- ---------------------------------------------------------------------------

/-- Escape one character as `JSON.stringify` does for the characters that
occur in this development (quote and backslash; control characters unused). -/
def escapeJsonChar (c : Char) : String :=
  if c.toNat = 34 then String.mk [Char.ofNat 92, Char.ofNat 34]
  else if c.toNat = 92 then String.mk [Char.ofNat 92, Char.ofNat 92]
  else String.mk [c]

def escapeJson (s : String) : String := String.join (s.data.map escapeJsonChar)

/-- `JSON.stringify`, modelled from the spec's "channels(serialized),
capabilities(serialized)" columns: external library code, used only to fill
those two columns. -/
def jsonPrint : Json → String
  | .null => "null"
  | .bool true => "true"
  | .bool false => "false"
  | .num n => toString n
  | .str s => String.mk [Char.ofNat 34] ++ escapeJson s ++ String.mk [Char.ofNat 34]
  | .arr xs => "[" ++ String.intercalate "," (xs.attach.map (fun x => jsonPrint x.1)) ++ "]"
  | .obj ms => "\x7b" ++
      String.intercalate ","
        (ms.attach.map (fun m =>
          String.mk [Char.ofNat 34] ++ escapeJson m.1.1 ++ String.mk [Char.ofNat 34] ++ ":" ++
            jsonPrint m.1.2)) ++ "\x7d"
decreasing_by
  · have := List.sizeOf_lt_of_mem x.2
    simp at this ⊢
    omega
  · obtain ⟨⟨k, v⟩, hm⟩ := m
    have := List.sizeOf_lt_of_mem hm
    simp at this ⊢
    omega

-- ---------------------------------------------------------------------------
--  Catalog rows (SQL tables, in insertion order)
-- ---------------------------------------------------------------------------

/-- A row of the `clawdbot_services` table.  The wall-clock `createdAt`
column is omitted: no query reads it.  `NOT NULL` columns are plain fields;
nullable columns are `Option`. -/
structure ServiceRow where
  txid : String
  outputIndex : Nat
  identityKey : String
  serviceId : String
  name : String
  description : Option String
  pricingModel : Option String
  pricingSats : Option Int
  timestamp : Option String
deriving DecidableEq, Repr

/-- A row of the `clawdbot_agents` table (again without `createdAt`). -/
structure AgentRow where
  txid : String
  outputIndex : Nat
  identityKey : String
  name : String
  description : Option String
  channels : Option String
  capabilities : Option String
  timestamp : Option String
deriving DecidableEq, Repr

def TOPICS_SERVICES : String := "tm_clawdbot_services"
def TOPICS_IDENTITY : String := "tm_clawdbot_identity"

/-- `insert ... onConflict(['txid','outputIndex']).merge()`: replace the row
with the same primary key if present, else append. -/
def upsertService (t : List ServiceRow) (row : ServiceRow) : List ServiceRow :=
  if t.any (fun r => r.txid == row.txid && r.outputIndex == row.outputIndex) then
    t.map (fun r => if r.txid == row.txid && r.outputIndex == row.outputIndex then row else r)
  else t ++ [row]

def upsertAgent (t : List AgentRow) (row : AgentRow) : List AgentRow :=
  if t.any (fun r => r.txid == row.txid && r.outputIndex == row.outputIndex) then
    t.map (fun r => if r.txid == row.txid && r.outputIndex == row.outputIndex then row else r)
  else t ++ [row]

/-- Build the service row that `outputAdmittedByTopic` inserts from a parsed
payload.  `none` models a write that cannot happen: accessing
`data.pricing.model` throws when `pricing` is absent or null, and the
`NOT NULL` columns (`identityKey`, `serviceId`, `name`) reject a missing
value, leaving the table unchanged.  (Non-string values bound to string
columns are also treated as failed writes — no claim depends on that corner.) -/
def serviceRowOfPayload (txid : String) (idx : Nat) (payload : Json) : Option ServiceRow :=
  match jget payload "pricing" with
  | some pricing =>
    (match pricing with
     | .null => none
     | _ =>
       match asStr (jget payload "identityKey"), asStr (jget payload "serviceId"),
             asStr (jget payload "name") with
       | some ik, some sid, some nm =>
         some { txid := txid, outputIndex := idx, identityKey := ik, serviceId := sid,
                name := nm,
                description := asStr (jget payload "description"),
                pricingModel := asStr (jget pricing "model"),
                pricingSats := asNum (jget pricing "amountSats"),
                timestamp := asStr (jget payload "timestamp") }
       | _, _, _ => none)
  | none => none

/-- Parse-then-extract pipeline of the service admission handler. -/
def svcParsedRow (txid : String) (idx : Nat) (s : Script) : Option ServiceRow :=
  match parseServiceFromScript s with
  | some payload => serviceRowOfPayload txid idx payload
  | none => none

/-- `ClawdbotServiceLookupService.outputAdmittedByTopic` as committed under
`src/src`: mode and topic gates, parse, then a plain upsert keyed by
`(txid, outputIndex)` — no `(identityKey, serviceId)` dedup. -/
def svcOutputAdmittedByTopic (t : List ServiceRow) (mode topic txid : String) (idx : Nat)
    (s : Script) : List ServiceRow :=
  if mode ≠ "locking-script" then t
  else if topic ≠ TOPICS_SERVICES then t
  else
    match svcParsedRow txid idx s with
    | none => t
    | some row => upsertService t row

/-- `outputAdmittedByTopic` of the built `dist` lookup service: before the
upsert it deletes every row with the same `(identityKey, serviceId)` other
than the admitted key. -/
def svcOutputAdmittedByTopicDist (t : List ServiceRow) (mode topic txid : String) (idx : Nat)
    (s : Script) : List ServiceRow :=
  if mode ≠ "locking-script" then t
  else if topic ≠ TOPICS_SERVICES then t
  else
    match svcParsedRow txid idx s with
    | none => t
    | some row =>
      upsertService
        (t.filter (fun r =>
          !(r.identityKey == row.identityKey && r.serviceId == row.serviceId &&
            !(r.txid == txid && r.outputIndex == idx))))
        row

def svcOutputSpent (t : List ServiceRow) (topic txid : String) (idx : Nat) : List ServiceRow :=
  if topic ≠ TOPICS_SERVICES then t
  else t.filter (fun r => !(r.txid == txid && r.outputIndex == idx))

def svcOutputEvicted (t : List ServiceRow) (txid : String) (idx : Nat) : List ServiceRow :=
  t.filter (fun r => !(r.txid == txid && r.outputIndex == idx))

/-- Build the agent row inserted by the identity admission handler.
`JSON.stringify` of an absent field is `undefined` (column left NULL);
`identityKey` and `name` are `NOT NULL` string columns. -/
def agentRowOfPayload (txid : String) (idx : Nat) (payload : Json) : Option AgentRow :=
  match asStr (jget payload "identityKey"), asStr (jget payload "name") with
  | some ik, some nm =>
    some { txid := txid, outputIndex := idx, identityKey := ik, name := nm,
           description := asStr (jget payload "description"),
           channels := (jget payload "channels").map jsonPrint,
           capabilities := (jget payload "capabilities").map jsonPrint,
           timestamp := asStr (jget payload "timestamp") }
  | _, _ => none

def agentParsedRow (txid : String) (idx : Nat) (s : Script) : Option AgentRow :=
  match parseIdentityFromScript s with
  | some payload => agentRowOfPayload txid idx payload
  | none => none

/-- `ClawdbotAgentLookupService.outputAdmittedByTopic`. -/
def agentOutputAdmittedByTopic (t : List AgentRow) (mode topic txid : String) (idx : Nat)
    (s : Script) : List AgentRow :=
  if mode ≠ "locking-script" then t
  else if topic ≠ TOPICS_IDENTITY then t
  else
    match agentParsedRow txid idx s with
    | none => t
    | some row => upsertAgent t row

def agentOutputSpent (t : List AgentRow) (topic txid : String) (idx : Nat) : List AgentRow :=
  if topic ≠ TOPICS_IDENTITY then t
  else t.filter (fun r => !(r.txid == txid && r.outputIndex == idx))

def agentOutputEvicted (t : List AgentRow) (txid : String) (idx : Nat) : List AgentRow :=
  t.filter (fun r => !(r.txid == txid && r.outputIndex == idx))

-- ---------------------------------------------------------------------------
--  Lookup queries
-- ---------------------------------------------------------------------------

structure ServiceLookupQuery where
  serviceType : Option String := none
  maxPriceSats : Option Int := none
  provider : Option String := none
deriving DecidableEq, Repr

structure AgentLookupQuery where
  identityKey : Option String := none
  name : Option String := none
  capability : Option String := none
deriving DecidableEq, Repr

/-- JavaScript truthiness of an optional string field (`if (query.field)`):
absent and empty are both falsy. -/
def strTruthy : Option String → Bool
  | some s => s != ""
  | none => false

/-- `ClawdbotServiceLookupService.lookup`: conditionally chained `where`
clauses, `limit(100)`, then projection to `(txid, outputIndex)`.  A NULL
`pricingSats` never satisfies the SQL `<=` comparison. -/
def serviceLookup (q : ServiceLookupQuery) (t : List ServiceRow) : List (String × Nat) :=
  let t1 : List ServiceRow :=
    if strTruthy q.serviceType then
      t.filter (fun (r : ServiceRow) => some r.serviceId == q.serviceType) else t
  let t2 : List ServiceRow :=
    if strTruthy q.provider then
      t1.filter (fun (r : ServiceRow) => some r.identityKey == q.provider) else t1
  let t3 : List ServiceRow :=
    match q.maxPriceSats with
    | some m => t2.filter (fun (r : ServiceRow) =>
        match r.pricingSats with
        | some p => decide (p ≤ m)
        | none => false)
    | none => t2
  (t3.take 100).map (fun (r : ServiceRow) => (r.txid, r.outputIndex))

def lowerChar (c : Char) : Char :=
  if 65 ≤ c.toNat ∧ c.toNat ≤ 90 then Char.ofNat (c.toNat + 32) else c

def lowerStr (s : String) : List Char := s.data.map lowerChar

/-- Substring test used to model SQL `LIKE '%pat%'` (SQLite's default LIKE is
ASCII-case-insensitive; callers lower both sides). -/
def containsSeq (pat hay : List Char) : Bool :=
  (List.range (hay.length + 1)).any (fun i => ((hay.drop i).take pat.length) == pat)

/-- `ClawdbotAgentLookupService.lookup`: exact identityKey, `LIKE %name%` on
name, `LIKE %"capability"%` on the serialized capability list, `limit(100)`. -/
def agentLookup (q : AgentLookupQuery) (t : List AgentRow) : List (String × Nat) :=
  let t1 : List AgentRow :=
    if strTruthy q.identityKey then
      t.filter (fun (r : AgentRow) => some r.identityKey == q.identityKey) else t
  let t2 : List AgentRow :=
    match q.name with
    | some s =>
      if s ≠ "" then
        t1.filter (fun (r : AgentRow) => containsSeq (lowerStr s) (lowerStr r.name)) else t1
    | none => t1
  let t3 : List AgentRow :=
    match q.capability with
    | some s =>
      if s ≠ "" then
        t2.filter (fun (r : AgentRow) =>
          match r.capabilities with
          | some caps =>
            containsSeq (Char.ofNat 34 :: (lowerStr s ++ [Char.ofNat 34])) (lowerStr caps)
          | none => false)
      else t2
    | none => t2
  (t3.take 100).map (fun (r : AgentRow) => (r.txid, r.outputIndex))

-- ---------------------------------------------------------------------------
--  Catalog lifecycle as a state machine over callback events
-- ---------------------------------------------------------------------------

/-- The host-facing callbacks that write the agent table. -/
inductive AgentEvent where
  | admitted (mode topic txid : String) (outputIndex : Nat) (lockingScript : Script)
  | spent (topic txid : String) (outputIndex : Nat)
  | evicted (txid : String) (outputIndex : Nat)
deriving DecidableEq, Repr

def agentStep (t : List AgentRow) : AgentEvent → List AgentRow
  | .admitted mode topic txid idx s => agentOutputAdmittedByTopic t mode topic txid idx s
  | .spent topic txid idx => agentOutputSpent t topic txid idx
  | .evicted txid idx => agentOutputEvicted t txid idx

/-- Run a sequence of callbacks against the initially empty agent table. -/
def agentExec (evs : List AgentEvent) : List AgentRow := evs.foldl agentStep []

/-- The event is an admission of exactly this key that passes every gate
(mode, topic, decode, row construction). -/
def admitOkB (txid : String) (idx : Nat) : AgentEvent → Bool
  | .admitted mode topic tx i s =>
      mode == "locking-script" && topic == TOPICS_IDENTITY && tx == txid && i == idx &&
        (agentParsedRow tx i s).isSome
  | _ => false

/-- The event deletes this key: a spend notification on the identity topic,
or an eviction. -/
def removesKeyB (txid : String) (idx : Nat) : AgentEvent → Bool
  | .spent topic tx i => topic == TOPICS_IDENTITY && tx == txid && i == idx
  | .evicted tx i => tx == txid && i == idx
  | _ => false

def hasKeyB (t : List AgentRow) (txid : String) (idx : Nat) : Bool :=
  t.any (fun r => r.txid == txid && r.outputIndex == idx)

/-- "Some event admits the key and no later event removes it". -/
def liveB (txid : String) (idx : Nat) : List AgentEvent → Bool
  | [] => false
  | e :: rest =>
    (admitOkB txid idx e && rest.all (fun e' => !removesKeyB txid idx e')) || liveB txid idx rest

-- ---------------------------------------------------------------------------
--  Topic manager admission
-- ---------------------------------------------------------------------------

/-- One decoded transaction output as the topic manager sees it. -/
structure TxOutput where
  lockingScript : Option Script
deriving DecidableEq, Repr

/-- The output-scanning loop of
`ClawdbotServicesTopicManager.identifyAdmissibleOutputs`, carrying the
current index. -/
def identifyLoop : Nat → List TxOutput → List Nat
  | _, [] => []
  | i, o :: rest =>
    match o.lockingScript with
    | some s =>
      if (parseServiceOutput s).isSome then i :: identifyLoop (i + 1) rest
      else identifyLoop (i + 1) rest
    | none => identifyLoop (i + 1) rest

/-- `identifyAdmissibleOutputs`: the admitted indices and the (always empty)
retained-coin set. -/
def identifyAdmissibleOutputs (outputs : List TxOutput) : List Nat × List Nat :=
  (identifyLoop 0 outputs, [])

-- ---------------------------------------------------------------------------
--  Encoding (client side)
-- ---------------------------------------------------------------------------

/-- Modelled from the spec: the SDK's `Script.writeBin` minimal-length
pushdata encoding — "direct length byte for ≤75 bytes; else a
length-prefixed pushdata form with a 1-, 2-, or 4-byte little-endian length
field depending on size". -/
def pushBin (b : List Nat) : List Nat :=
  if b.length ≤ 75 then b.length :: b
  else if b.length ≤ 255 then 76 :: b.length :: b
  else if b.length ≤ 65535 then 77 :: (b.length % 256) :: (b.length / 256) :: b
  else 78 :: (b.length % 256) :: (b.length / 256 % 256) :: (b.length / 65536 % 256) ::
         (b.length / 16777216 % 256) :: b

/-- The serialized bytes of the client's `buildOpReturnScript`: `OP_FALSE`
`OP_RETURN`, the protocol-tag push, then the JSON-payload push. -/
def buildOpReturnScript (jsonBytes : List Nat) : List Nat :=
  0 :: OPRETURN :: (pushBin protocolBytes ++ pushBin jsonBytes)

/-- Modelled from the spec: the SDK v1.10+ chunk parser "collapses everything
after OP_RETURN into a single chunk with all remaining bytes as `data`"
(comment in the built topic manager).  Scripts that do not start with the
two-opcode prefix are not needed here. -/
def collapseChunks (bytes : List Nat) : Script :=
  match bytes with
  | 0 :: 106 :: rest => ⟨[⟨0, none⟩, ⟨OPRETURN, some rest⟩]⟩
  | _ => ⟨[]⟩

-- ---------------------------------------------------------------------------
--  Concrete inputs
-- ---------------------------------------------------------------------------

/-- A well-formed 66-hex-character identity key. -/
def ikA : String := "02aaaaaaaaaaaaaaaaaaaaaaaaaaaaaaaaaaaaaaaaaaaaaaaaaaaaaaaaaaaaaaaa"

/-- A fully valid service payload (serviceId "A", price 5). -/
def svcJsonA : String :=
  "\x7b\"protocol\":\"clawdbot-overlay-v1\",\"type\":\"service\",\"identityKey\":\"" ++ ikA ++
  "\",\"serviceId\":\"A\",\"name\":\"svc\",\"description\":\"d\",\"pricing\":\x7b\"model\":\"per-task\",\"amountSats\":5\x7d,\"timestamp\":\"t1\"\x7d"

/-- Same provider and serviceId "A", different price — the re-advertisement. -/
def svcJsonA2 : String :=
  "\x7b\"protocol\":\"clawdbot-overlay-v1\",\"type\":\"service\",\"identityKey\":\"" ++ ikA ++
  "\",\"serviceId\":\"A\",\"name\":\"svc\",\"description\":\"d\",\"pricing\":\x7b\"model\":\"per-task\",\"amountSats\":9\x7d,\"timestamp\":\"t2\"\x7d"

/-- A service payload that is valid except that `pricing.model` is the empty
string. -/
def svcJsonEmptyModel : String :=
  "\x7b\"protocol\":\"clawdbot-overlay-v1\",\"type\":\"service\",\"identityKey\":\"" ++ ikA ++
  "\",\"serviceId\":\"A\",\"name\":\"svc\",\"pricing\":\x7b\"model\":\"\",\"amountSats\":5\x7d,\"timestamp\":\"t1\"\x7d"

/-- An `OP_FALSE OP_RETURN <protocol> <payload>` script in the discrete
4-chunk representation. -/
def mkDataScript (payloadBytes : List Nat) : Script :=
  ⟨[⟨0, none⟩, ⟨OPRETURN, none⟩, ⟨protocolBytes.length, some protocolBytes⟩,
    ⟨payloadBytes.length, some payloadBytes⟩]⟩

def sA1 : Script := mkDataScript (strBytes svcJsonA)

def sA2 : Script := mkDataScript (strBytes svcJsonA2)

def sEmptyModel : Script := mkDataScript (strBytes svcJsonEmptyModel)

/-- Admit (tx1,0) then (tx2,0), both serviceId "A" from the same provider,
through the `src` handler (no dedup). -/
def tSrc : List ServiceRow :=
  svcOutputAdmittedByTopic
    (svcOutputAdmittedByTopic [] "locking-script" TOPICS_SERVICES "tx1" 0 sA1)
    "locking-script" TOPICS_SERVICES "tx2" 0 sA2

/-- The same two admissions through the `dist` handler (with dedup). -/
def tDist : List ServiceRow :=
  svcOutputAdmittedByTopicDist
    (svcOutputAdmittedByTopicDist [] "locking-script" TOPICS_SERVICES "tx1" 0 sA1)
    "locking-script" TOPICS_SERVICES "tx2" 0 sA2

/-- The parsed payload of the valid service script. -/
def svcPayloadA : Json := (parseServiceOutput sA1).getD .null

/-- The parsed payload of the empty-`pricing.model` script. -/
def svcPayloadEmptyModel : Json := (parseServiceOutput sEmptyModel).getD .null

/-- A fully valid identity payload for key `ikA`. -/
def idJsonA : String :=
  "\x7b\"protocol\":\"clawdbot-overlay-v1\",\"type\":\"identity\",\"identityKey\":\"" ++ ikA ++
  "\",\"name\":\"bot\",\"description\":\"d\",\"channels\":\x7b\x7d,\"capabilities\":[\"research\"],\"timestamp\":\"t\"\x7d"

def idScriptA : Script := mkDataScript (strBytes idJsonA)

/-- Admission of the valid identity output (tx1, 0). -/
def adEvA : AgentEvent := .admitted "locking-script" TOPICS_IDENTITY "tx1" 0 idScriptA

/-- Spend notification for (tx1, 0) on the identity topic. -/
def spEvA : AgentEvent := .spent TOPICS_IDENTITY "tx1" 0

/-- A payload of `n` bytes (the letter `a`). -/
def jsonBig (n : Nat) : List Nat := List.replicate n 97

/-- An output passes both steps: it has a locking script that decodes and
validates for the Service category. -/
def outputAdmissible (o : TxOutput) : Bool :=
  match o.lockingScript with
  | some s => (parseServiceOutput s).isSome
  | none => false

/-- 150 distinct rows, all serviceId "A", priced 1 sat. -/
def bigTable : List ServiceRow :=
  (List.range 150).map (fun i =>
    ⟨toString i, i, ikA, "A", "svc", none, none, some 1, none⟩)

/-- A concrete service row priced at 5 satoshis. -/
def rowP5 : ServiceRow := ⟨"t", 0, ikA, "A", "svc", none, none, some 5, none⟩

-- ---------------------------------------------------------------------------
--  Shared helper lemmas
-- ---------------------------------------------------------------------------

/-- Everything `validateServicePayload` lets through satisfies the checks it
performs, and is returned unchanged. -/
theorem validateServicePayload_shape (p q : Json) (h : validateServicePayload p = some q) :
    q = p ∧
    jget p "protocol" = some (.str PROTOCOL_ID) ∧
    jget p "type" = some (.str "service") ∧
    (∃ ik, jget p "identityKey" = some (.str ik) ∧ isHex66 ik = true) ∧
    (∃ sid, jget p "serviceId" = some (.str sid) ∧ sid ≠ "") ∧
    (∃ nm, jget p "name" = some (.str nm) ∧ nm ≠ "") ∧
    (∃ pricing, jget p "pricing" = some pricing ∧ jsTruthy pricing = true ∧
      (∃ m, jget pricing "model" = some (.str m)) ∧
      (∃ amt : Int, jget pricing "amountSats" = some (.num amt) ∧ 0 ≤ amt)) ∧
    (∃ ts, jget p "timestamp" = some (.str ts)) := by
  unfold validateServicePayload at h
  split at h <;> try exact Option.noConfusion h
  rename_i pr hpr
  split at h <;> try exact Option.noConfusion h
  rename_i hne1
  split at h <;> try exact Option.noConfusion h
  rename_i ty hty
  split at h <;> try exact Option.noConfusion h
  rename_i hne2
  split at h <;> try exact Option.noConfusion h
  rename_i ik hik
  split at h <;> try exact Option.noConfusion h
  rename_i hikh
  split at h <;> try exact Option.noConfusion h
  rename_i sid hsid
  split at h <;> try exact Option.noConfusion h
  rename_i hsne
  split at h <;> try exact Option.noConfusion h
  rename_i nm hnm
  split at h <;> try exact Option.noConfusion h
  rename_i hnne
  split at h <;> try exact Option.noConfusion h
  rename_i pricing hpricing
  split at h <;> try exact Option.noConfusion h
  rename_i htruthy
  split at h <;> try exact Option.noConfusion h
  rename_i m hm
  split at h <;> try exact Option.noConfusion h
  rename_i amt hamt
  split at h <;> try exact Option.noConfusion h
  rename_i hamtpos
  split at h <;> try exact Option.noConfusion h
  rename_i ts hts
  simp only [Option.some.injEq] at h
  push_neg at hne1 hne2 hikh hsne hnne htruthy hamtpos
  exact ⟨h.symm, by simp [hpr, hne1], by simp [hty, hne2],
    ⟨ik, hik, by simpa using hikh⟩, ⟨sid, hsid, hsne⟩, ⟨nm, hnm, hnne⟩,
    ⟨pricing, hpricing, by simpa using htruthy, ⟨m, hm⟩, ⟨amt, hamt, by omega⟩⟩, ⟨ts, hts⟩⟩

/-- A payload admitted by the topic manager's `parseServiceOutput` came out of
`validateServicePayload`. -/
theorem parseServiceOutput_validated (s : Script) (q : Json)
    (h : parseServiceOutput s = some q) : validateServicePayload q = some q := by
  unfold parseServiceOutput at h
  split at h <;> try exact Option.noConfusion h
  split at h <;> try exact Option.noConfusion h
  split at h <;> try exact Option.noConfusion h
  split at h <;> try exact Option.noConfusion h
  split at h <;> try exact Option.noConfusion h
  split at h <;> try exact Option.noConfusion h
  rename_i payload hpayload
  have hq := (validateServicePayload_shape payload q h).1
  subst hq
  exact h

-- ---------------------------------------------------------------------------
--  C1
-- ---------------------------------------------------------------------------

/-- C1 (code bug evidence): admitting `(tx1,0)` and then `(tx2,0)` for the
same `(identityKey, serviceId)` pair through the committed `src`
`outputAdmittedByTopic` leaves BOTH rows in the table, so
`lookup({serviceType:"A"})` returns both keys — the claimed dedup does not
happen.  The built `dist` handler of the same repository does dedup, and
there the same trace leaves only `(tx2,0)`. -/
theorem c1_service_dedup_divergence :
    serviceLookup ⟨some "A", none, none⟩ tSrc = [("tx1", 0), ("tx2", 0)] ∧
    serviceLookup ⟨some "A", none, none⟩ tDist = [("tx2", 0)] :=
  ⟨rfl, rfl⟩

-- ---------------------------------------------------------------------------
--  C2
-- ---------------------------------------------------------------------------

/-- C2 counterexample: a service payload whose `pricing.model` is the empty
string is ADMITTED by `parseServiceOutput` — the claim says an empty required
string under `pricing.model` is rejected, but the code only checks
`typeof payload.pricing.model !== 'string'`. -/
theorem c2_empty_model_admitted :
    parseServiceOutput sEmptyModel = some svcPayloadEmptyModel ∧
    (jget svcPayloadEmptyModel "pricing").bind (fun pr => jget pr "model") =
      some (.str "") :=
  ⟨rfl, rfl⟩

/-- C2 (amended): validation by the Service topic manager is all-or-nothing —
whenever `parseServiceOutput` admits a payload, the payload's `identityKey`
matches the 66-hex pattern, `serviceId` and `name` are non-empty strings,
`pricing.amountSats` is a non-negative number, `pricing.model` is a string
(possibly empty), `type` is "service", `protocol` is the protocol id and
`timestamp` is a string; contrapositively every output violating one of these
checks is rejected.  (The `capabilities`-array check belongs to the identity
category, whose validating implementation is not part of the committed
topic-manager source.) -/
theorem c2_service_schema_allornothing (s : Script) (q : Json)
    (h : parseServiceOutput s = some q) :
    jget q "protocol" = some (.str PROTOCOL_ID) ∧
    jget q "type" = some (.str "service") ∧
    (∃ ik, jget q "identityKey" = some (.str ik) ∧ isHex66 ik = true) ∧
    (∃ sid, jget q "serviceId" = some (.str sid) ∧ sid ≠ "") ∧
    (∃ nm, jget q "name" = some (.str nm) ∧ nm ≠ "") ∧
    (∃ pricing, jget q "pricing" = some pricing ∧
      (∃ m, jget pricing "model" = some (.str m)) ∧
      (∃ amt : Int, jget pricing "amountSats" = some (.num amt) ∧ 0 ≤ amt)) ∧
    (∃ ts, jget q "timestamp" = some (.str ts)) := by
  have hv := validateServicePayload_shape q q (parseServiceOutput_validated s q h)
  exact ⟨hv.2.1, hv.2.2.1, hv.2.2.2.1, hv.2.2.2.2.1, hv.2.2.2.2.2.1,
    (hv.2.2.2.2.2.2.1).imp (fun pricing hp => ⟨hp.1, hp.2.2.1, hp.2.2.2⟩),
    hv.2.2.2.2.2.2.2⟩

/-- Witness for C2: the fully valid concrete service script is admitted and
the theorem's guarantees hold of its payload. -/
theorem c2_service_schema_allornothing_witness :
    (∃ ik, jget svcPayloadA "identityKey" = some (.str ik) ∧ isHex66 ik = true) ∧
    (∃ amt : Int,
      (jget svcPayloadA "pricing").bind (fun pr => jget pr "amountSats") =
        some (.num amt) ∧ 0 ≤ amt) := by
  have h := c2_service_schema_allornothing sA1 svcPayloadA rfl
  refine ⟨h.2.2.1, ?_⟩
  obtain ⟨pricing, hp, _, amt, hamt, hpos⟩ := h.2.2.2.2.2.1
  exact ⟨amt, by rw [hp]; exact hamt, hpos⟩
-- ---------------------------------------------------------------------------
--  Pushdata stream lemmas
-- ---------------------------------------------------------------------------

/-- A direct-length push (1..75) followed by exactly its bytes. -/
theorem parsePushStream_direct (k : Nat) (xs rest : List Nat)
    (h1 : 1 ≤ k) (h2 : k ≤ 75) (hlen : xs.length = k) :
    parsePushStream (k :: (xs ++ rest)) = xs :: parsePushStream rest := by
  rw [parsePushStream]
  rw [if_pos ⟨h1, h2⟩]
  rw [← hlen, List.take_left, List.drop_left]

/-- A PUSHDATA1 push followed by exactly its bytes. -/
theorem parsePushStream_pd1 (len : Nat) (xs rest : List Nat) (hlen : xs.length = len) :
    parsePushStream (76 :: len :: (xs ++ rest)) = xs :: parsePushStream rest := by
  rw [parsePushStream]
  rw [if_neg (by omega), if_pos rfl]
  simp only [List.headD_cons, List.tail_cons]
  rw [← hlen, List.take_left, List.drop_left]

/-- A PUSHDATA2 push followed by exactly its bytes. -/
theorem parsePushStream_pd2 (lo hi : Nat) (xs rest : List Nat)
    (hlen : xs.length = lo + hi * 256) :
    parsePushStream (77 :: lo :: hi :: (xs ++ rest)) = xs :: parsePushStream rest := by
  rw [parsePushStream]
  rw [if_neg (by omega), if_neg (by omega), if_pos rfl]
  simp only [List.headD_cons, List.tail_cons]
  rw [← hlen, List.take_left, List.drop_left]

/-- Any other leading byte (0, or ≥ 78 — including the PUSHDATA4 marker)
stops the loop with no further pushes. -/
theorem parsePushStream_stop (u : Nat) (rest : List Nat)
    (hu : ¬(1 ≤ u ∧ u ≤ 75)) (h76 : u ≠ 76) (h77 : u ≠ 77) :
    parsePushStream (u :: rest) = [] := by
  rw [parsePushStream]
  rw [if_neg hu, if_neg h76, if_neg h77]

-- ---------------------------------------------------------------------------
--  C8
-- ---------------------------------------------------------------------------

/-- C8: the coalesced-blob re-parser clamps every slice to the remaining
buffer (a truncated push is returned, not rejected) for each recognized
opcode form, stops at the first unrecognized length byte, and keeps the
pushes collected before the stop instead of failing the parse. -/
theorem c8_clamp_and_early_stop :
    (∀ k xs, 1 ≤ k → k ≤ 75 → xs.length ≤ k → parsePushStream (k :: xs) = [xs]) ∧
    (∀ len xs, xs.length ≤ len → parsePushStream (76 :: len :: xs) = [xs]) ∧
    (∀ lo hi xs, xs.length ≤ lo + hi * 256 →
      parsePushStream (77 :: lo :: hi :: xs) = [xs]) ∧
    (∀ u rest, ¬(1 ≤ u ∧ u ≤ 75) → u ≠ 76 → u ≠ 77 →
      parsePushStream (u :: rest) = []) ∧
    (∀ k xs u rest, 1 ≤ k → k ≤ 75 → xs.length = k →
      ¬(1 ≤ u ∧ u ≤ 75) → u ≠ 76 → u ≠ 77 →
      parsePushStream (k :: (xs ++ u :: rest)) = [xs]) := by
  refine ⟨?_, ?_, ?_, parsePushStream_stop, ?_⟩
  · intro k xs h1 h2 hle
    rw [parsePushStream, if_pos ⟨h1, h2⟩]
    rw [List.take_of_length_le hle, List.drop_eq_nil_of_le hle, parsePushStream]
  · intro len xs hle
    rw [parsePushStream, if_neg (by omega), if_pos rfl]
    simp only [List.headD_cons, List.tail_cons]
    rw [List.take_of_length_le hle, List.drop_eq_nil_of_le hle, parsePushStream]
  · intro lo hi xs hle
    rw [parsePushStream, if_neg (by omega), if_neg (by omega), if_pos rfl]
    simp only [List.headD_cons, List.tail_cons]
    rw [List.take_of_length_le hle, List.drop_eq_nil_of_le hle, parsePushStream]
  · intro k xs u rest h1 h2 hlen hu h76 h77
    rw [parsePushStream_direct k xs (u :: rest) h1 h2 hlen,
      parsePushStream_stop u rest hu h76 h77]

/-- Witness for C8: a truncated direct push is tolerated, an unrecognized
trailing byte (0x00) stops the parse keeping the first push. -/
theorem c8_clamp_and_early_stop_witness :
    parsePushStream [3, 65, 66] = [[65, 66]] ∧
    parsePushStream [2, 65, 66, 0, 9, 9] = [[65, 66]] := by
  refine ⟨c8_clamp_and_early_stop.1 3 [65, 66] (by decide) (by decide) (by decide), ?_⟩
  exact c8_clamp_and_early_stop.2.2.2.2 2 [65, 66] 0 [9, 9]
    (by decide) (by decide) (by decide) (by decide) (by decide) (by decide)

-- ---------------------------------------------------------------------------
--  C4
-- ---------------------------------------------------------------------------

/-- C4 (code bug evidence): on the blob `[1, 65, 4e, 1, 0, 0, 0, 66]` —
a direct 1-byte push `A` followed by a PUSHDATA4 push `B` — the lookup
service's re-parser stops at the `0x4e` marker, recovers a single push and
therefore fails decoding (`none`), while the built topic manager's re-parser
in the same repository honors PUSHDATA4 and recovers both pushes. -/
theorem c4_pushdata4_unrecognized :
    parsePushStream [1, 65, 78, 1, 0, 0, 0, 66] = [[65]] ∧
    parsePushStreamDist [1, 65, 78, 1, 0, 0, 0, 66] = [[65], [66]] ∧
    extractOpReturnPushes ⟨[⟨0, none⟩, ⟨OPRETURN, some [1, 65, 78, 1, 0, 0, 0, 66]⟩]⟩ =
      none ∧
    extractOpReturnPushesDist ⟨[⟨0, none⟩, ⟨OPRETURN, some [1, 65, 78, 1, 0, 0, 0, 66]⟩]⟩ =
      some [[65], [66]] := by
  have h1 : parsePushStream [1, 65, 78, 1, 0, 0, 0, 66] = [[65]] := by
    rw [show (1 :: 65 :: [78, 1, 0, 0, 0, 66] : List Nat) =
          1 :: ([65] ++ (78 :: [1, 0, 0, 0, 66])) from rfl] at *
    rw [parsePushStream_direct 1 [65] (78 :: [1, 0, 0, 0, 66]) (by omega) (by omega) rfl,
      parsePushStream_stop 78 [1, 0, 0, 0, 66] (by omega) (by omega) (by omega)]
  have h2 : parsePushStreamDist [1, 65, 78, 1, 0, 0, 0, 66] = [[65], [66]] := by
    rw [parsePushStreamDist]
    norm_num
    rw [parsePushStreamDist]
    norm_num
    rw [parsePushStreamDist]
  refine ⟨h1, h2, ?_, ?_⟩
  · unfold extractOpReturnPushes
    simp [OPRETURN, h1]
  · unfold extractOpReturnPushesDist
    simp [OPRETURN, h2]

-- ---------------------------------------------------------------------------
--  C7
-- ---------------------------------------------------------------------------

/-- C7: if decoding recovers fewer than two pushes, no payload is extracted:
a failed extraction yields `none`; a successful extraction with fewer than
two pushes (possible on the discrete-chunks path) still makes
`parseServiceFromScript` return `none`; and the coalesced-blob path never
returns fewer than two pushes — it returns `none` instead. -/
theorem c7_fewer_than_two_pushes (s : Script) :
    (extractOpReturnPushes s = none → parseServiceFromScript s = none) ∧
    (∀ ps, extractOpReturnPushes s = some ps → ps.length < 2 →
      parseServiceFromScript s = none) ∧
    (∀ c0 c1 ps, s = ⟨[c0, c1]⟩ → extractOpReturnPushes s = some ps →
      2 ≤ ps.length) := by
  refine ⟨?_, ?_, ?_⟩
  · intro h
    unfold parseServiceFromScript
    rw [h]
  · intro ps h hlt
    unfold parseServiceFromScript
    rw [h]
    simp only [if_pos hlt]
  · intro c0 c1 ps hs h
    subst hs
    unfold extractOpReturnPushes at h
    split at h <;> try exact Option.noConfusion h
    · rename_i heq
      exact absurd heq (by simp)
    · split at h <;> try exact Option.noConfusion h
      split at h <;> try exact Option.noConfusion h
      split at h <;> try exact Option.noConfusion h
      rename_i hle
      simp only [Option.some.injEq] at h
      subst h
      exact hle
    · rename_i hno4 hno2
      exact absurd rfl (hno2 c0 c1)

/-- Witness for C7: a 4-chunk script with only one data chunk extracts a
single push and the payload parse fails. -/
theorem c7_fewer_than_two_pushes_witness :
    parseServiceFromScript ⟨[⟨0, none⟩, ⟨OPRETURN, none⟩,
      ⟨protocolBytes.length, some protocolBytes⟩, ⟨0, none⟩]⟩ = none :=
  (c7_fewer_than_two_pushes _).2.1 [protocolBytes] rfl (by decide)

-- ---------------------------------------------------------------------------
--  C6
-- ---------------------------------------------------------------------------

theorem parseServiceFromScript_extract_none (s : Script)
    (h : extractOpReturnPushes s = none) : parseServiceFromScript s = none := by
  unfold parseServiceFromScript
  rw [h]

/-- Decoding the collapsed form of an encoded script recovers exactly the two
pushes, for payloads up to 65535 bytes (direct, PUSHDATA1 and PUSHDATA2
encodings). -/
theorem decode_encode_le_65535 (jsonB : List Nat)
    (h1 : 1 ≤ jsonB.length) (h2 : jsonB.length ≤ 65535) :
    extractOpReturnPushes (collapseChunks (buildOpReturnScript jsonB)) =
      some [protocolBytes, jsonB] := by
  have hcollapse : collapseChunks (buildOpReturnScript jsonB) =
      ⟨[⟨0, none⟩, ⟨OPRETURN, some (pushBin protocolBytes ++ pushBin jsonB)⟩]⟩ := rfl
  rw [hcollapse]
  have hproto : pushBin protocolBytes = 19 :: protocolBytes := rfl
  have hstream : parsePushStream (pushBin protocolBytes ++ pushBin jsonB) =
      [protocolBytes, jsonB] := by
    rw [hproto]
    rw [List.cons_append]
    rw [parsePushStream_direct 19 protocolBytes (pushBin jsonB) (by omega) (by omega) rfl]
    by_cases hc1 : jsonB.length ≤ 75
    · have hp : pushBin jsonB = jsonB.length :: jsonB := by
        unfold pushBin
        rw [if_pos hc1]
      rw [hp]
      rw [show (jsonB.length :: jsonB : List Nat) = jsonB.length :: (jsonB ++ []) by simp]
      rw [parsePushStream_direct jsonB.length jsonB [] h1 hc1 rfl, parsePushStream]
    · by_cases hc2 : jsonB.length ≤ 255
      · have hp : pushBin jsonB = 76 :: jsonB.length :: jsonB := by
          unfold pushBin
          rw [if_neg hc1, if_pos hc2]
        rw [hp]
        rw [show (76 :: jsonB.length :: jsonB : List Nat) =
              76 :: jsonB.length :: (jsonB ++ []) by simp]
        rw [parsePushStream_pd1 jsonB.length jsonB [] rfl, parsePushStream]
      · have hp : pushBin jsonB =
            77 :: (jsonB.length % 256) :: (jsonB.length / 256) :: jsonB := by
          unfold pushBin
          rw [if_neg hc1, if_neg hc2, if_pos h2]
        rw [hp]
        rw [show (77 :: (jsonB.length % 256) :: (jsonB.length / 256) :: jsonB : List Nat) =
              77 :: (jsonB.length % 256) :: (jsonB.length / 256) :: (jsonB ++ []) by simp]
        rw [parsePushStream_pd2 (jsonB.length % 256) (jsonB.length / 256) jsonB []
              (by omega), parsePushStream]
  unfold extractOpReturnPushes
  simp only [OPRETURN, hstream]
  norm_num

/-- For a payload of 65536 bytes or more the encoder emits the PUSHDATA4
marker, which the lookup service's blob re-parser does not recognise: only
the protocol push is recovered and decoding fails. -/
theorem decode_encode_pd4_fails (jsonB : List Nat) (h : 65536 ≤ jsonB.length) :
    extractOpReturnPushes (collapseChunks (buildOpReturnScript jsonB)) = none := by
  have hcollapse : collapseChunks (buildOpReturnScript jsonB) =
      ⟨[⟨0, none⟩, ⟨OPRETURN, some (pushBin protocolBytes ++ pushBin jsonB)⟩]⟩ := rfl
  rw [hcollapse]
  have hproto : pushBin protocolBytes = 19 :: protocolBytes := rfl
  have hp : pushBin jsonB = 78 :: (jsonB.length % 256) :: (jsonB.length / 256 % 256) ::
      (jsonB.length / 65536 % 256) :: (jsonB.length / 16777216 % 256) :: jsonB := by
    unfold pushBin
    rw [if_neg (by omega), if_neg (by omega), if_neg (by omega)]
  have hstream : parsePushStream (pushBin protocolBytes ++ pushBin jsonB) =
      [protocolBytes] := by
    rw [hproto, List.cons_append]
    rw [parsePushStream_direct 19 protocolBytes (pushBin jsonB) (by omega) (by omega) rfl]
    rw [hp]
    rw [parsePushStream_stop 78 _ (by omega) (by omega) (by omega)]
  unfold extractOpReturnPushes
  simp only [OPRETURN, hstream]
  norm_num

/-- C6 (code bug evidence): after encoding with minimal pushdata and
re-parsing the serialized script in the collapsed two-chunk form, decode
recovers the protocol and JSON pushes exactly at the boundary payload sizes
75, 76, 255, 256 and 65535 — but at 65536 bytes (PUSHDATA4) decoding returns
`none` and no payload is extracted, while the discrete-chunk representation
of the very same script still yields both pushes.  The two representations
disagree, and the claimed round-trip fails at the PUSHDATA4 boundary. -/
theorem c6_roundtrip_boundary_sizes :
    extractOpReturnPushes (collapseChunks (buildOpReturnScript (jsonBig 75))) =
      some [protocolBytes, jsonBig 75] ∧
    extractOpReturnPushes (collapseChunks (buildOpReturnScript (jsonBig 76))) =
      some [protocolBytes, jsonBig 76] ∧
    extractOpReturnPushes (collapseChunks (buildOpReturnScript (jsonBig 255))) =
      some [protocolBytes, jsonBig 255] ∧
    extractOpReturnPushes (collapseChunks (buildOpReturnScript (jsonBig 256))) =
      some [protocolBytes, jsonBig 256] ∧
    extractOpReturnPushes (collapseChunks (buildOpReturnScript (jsonBig 65535))) =
      some [protocolBytes, jsonBig 65535] ∧
    extractOpReturnPushes (collapseChunks (buildOpReturnScript (jsonBig 65536))) = none ∧
    parseServiceFromScript (collapseChunks (buildOpReturnScript (jsonBig 65536))) = none ∧
    extractOpReturnPushes (mkDataScript (jsonBig 65536)) =
      some [protocolBytes, jsonBig 65536] := by
  have hlen : ∀ n, (jsonBig n).length = n := by
    intro n
    simp [jsonBig]
  refine ⟨decode_encode_le_65535 _ (by rw [hlen]; omega) (by rw [hlen]; omega),
    decode_encode_le_65535 _ (by rw [hlen]; omega) (by rw [hlen]; omega),
    decode_encode_le_65535 _ (by rw [hlen]; omega) (by rw [hlen]; omega),
    decode_encode_le_65535 _ (by rw [hlen]; omega) (by rw [hlen]; omega),
    decode_encode_le_65535 _ (by rw [hlen]; omega) (by rw [hlen]),
    decode_encode_pd4_fails _ (by rw [hlen]),
    parseServiceFromScript_extract_none _ (decode_encode_pd4_fails _ (by rw [hlen])), ?_⟩
  unfold extractOpReturnPushes mkDataScript
  simp [OPRETURN]

-- ---------------------------------------------------------------------------
--  C5
-- ---------------------------------------------------------------------------

theorem identifyLoop_cons (k : Nat) (o : TxOutput) (rest : List TxOutput) :
    identifyLoop k (o :: rest) =
      (if outputAdmissible o then [k] else []) ++ identifyLoop (k + 1) rest := by
  cases hs : o.lockingScript with
  | none => simp [identifyLoop, hs, outputAdmissible]
  | some s =>
    by_cases hp : (parseServiceOutput s).isSome = true
    · simp [identifyLoop, hs, outputAdmissible, hp]
    · simp [identifyLoop, hs, outputAdmissible, hp]

theorem identifyLoop_mem (outs : List TxOutput) (k i : Nat) :
    i ∈ identifyLoop k outs ↔
      ∃ j o, outs[j]? = some o ∧ i = k + j ∧ outputAdmissible o = true := by
  induction outs generalizing k with
  | nil => simp [identifyLoop]
  | cons o rest ih =>
    rw [identifyLoop_cons]
    constructor
    · intro hm
      rcases List.mem_append.1 hm with hm | hm
      · by_cases ha : outputAdmissible o = true
        · simp [ha] at hm
          exact ⟨0, o, by simp, by omega, ha⟩
        · simp [ha] at hm
      · obtain ⟨j, o', hj, hi, hadm⟩ := (ih (k + 1)).1 hm
        exact ⟨j + 1, o', by simpa using hj, by omega, hadm⟩
    · rintro ⟨j, o', hj, hi, hadm⟩
      cases j with
      | zero =>
        simp only [List.getElem?_cons_zero, Option.some.injEq] at hj
        subst hj
        simp [hadm, hi]
      | succ j =>
        simp only [List.getElem?_cons_succ] at hj
        refine List.mem_append.2 (Or.inr ?_)
        exact (ih (k + 1)).2 ⟨j, o', hj, by omega, hadm⟩

theorem identifyLoop_ge (outs : List TxOutput) (k : Nat) :
    ∀ x ∈ identifyLoop k outs, k ≤ x := by
  induction outs generalizing k with
  | nil => simp [identifyLoop]
  | cons o rest ih =>
    rw [identifyLoop_cons]
    intro x hx
    rcases List.mem_append.1 hx with hx | hx
    · split at hx <;> simp_all
    · exact Nat.le_of_succ_le (ih (k + 1) x hx)

theorem identifyLoop_pairwise (outs : List TxOutput) (k : Nat) :
    (identifyLoop k outs).Pairwise (· < ·) := by
  induction outs generalizing k with
  | nil => simp [identifyLoop]
  | cons o rest ih =>
    rw [identifyLoop_cons]
    split
    · refine List.Pairwise.cons ?_ (ih (k + 1))
      intro x hx
      exact Nat.lt_of_succ_le (identifyLoop_ge rest (k + 1) x hx)
    · simpa using ih (k + 1)

/-- C5: `identifyAdmissibleOutputs` admits exactly the indices whose output
has a locking script that decodes and validates (each output judged
independently; malformed outputs silently excluded), in strictly ascending
index order; the retained-coin set is always empty; and on the concrete
transaction [valid, garbage, valid] the admitted set is `[0, 2]`. -/
theorem c5_identify_admissible_outputs (outputs : List TxOutput) :
    (identifyAdmissibleOutputs outputs).2 = [] ∧
    (∀ i, i ∈ (identifyAdmissibleOutputs outputs).1 ↔
      ∃ o, outputs[i]? = some o ∧ ∃ s, o.lockingScript = some s ∧
        (parseServiceOutput s).isSome = true) ∧
    ((identifyAdmissibleOutputs outputs).1).Pairwise (· < ·) ∧
    identifyAdmissibleOutputs [⟨some sA1⟩, ⟨some ⟨[]⟩⟩, ⟨some sA1⟩] = ([0, 2], []) := by
  refine ⟨rfl, ?_, identifyLoop_pairwise outputs 0, ?_⟩
  · intro i
    rw [show (identifyAdmissibleOutputs outputs).1 = identifyLoop 0 outputs from rfl]
    rw [identifyLoop_mem]
    constructor
    · rintro ⟨j, o, hj, hi, hadm⟩
      refine ⟨o, by simpa [hi] using hj, ?_⟩
      unfold outputAdmissible at hadm
      cases hs : o.lockingScript with
      | none => rw [hs] at hadm; exact Bool.noConfusion hadm
      | some s => rw [hs] at hadm; exact ⟨s, rfl, hadm⟩
    · rintro ⟨o, hj, s, hs, hadm⟩
      exact ⟨i, o, hj, by omega, by unfold outputAdmissible; rw [hs]; exact hadm⟩
  · rfl

-- ---------------------------------------------------------------------------
--  C9
-- ---------------------------------------------------------------------------

/-- C9: the specified filter fields combine conjunctively — the lookup equals
a single conjunctive filter (with `maxPriceSats` an inclusive `≤` bound and
string fields applied only when non-empty) followed by the 100-row cap and
key projection; every result set is capped at 100; and an empty filter over
any table of at least 150 rows returns exactly 100 results. -/
theorem c9_conjunctive_inclusive_cap (q : ServiceLookupQuery) (t : List ServiceRow) :
    serviceLookup q t =
      ((t.filter (fun r =>
          (match q.serviceType with
           | some s => s == "" || r.serviceId == s
           | none => true) &&
          (match q.provider with
           | some s => s == "" || r.identityKey == s
           | none => true) &&
          (match q.maxPriceSats with
           | some m =>
             match r.pricingSats with
             | some p => decide (p ≤ m)
             | none => false
           | none => true))).take 100).map (fun r => (r.txid, r.outputIndex)) ∧
    (serviceLookup q t).length ≤ 100 ∧
    (150 ≤ t.length → (serviceLookup ⟨none, none, none⟩ t).length = 100) := by
  refine ⟨?_, ?_, ?_⟩
  · rcases q with ⟨st, mp, pv⟩
    unfold serviceLookup
    dsimp only
    have hb : ∀ s : String, ¬s = "" → (s == "") = false := by
      intro s hs
      simp [hs]
    rcases st with _ | s <;> rcases pv with _ | p <;> rcases mp with _ | m <;>
      simp only [strTruthy]
    all_goals (try by_cases hs : s = "")
    all_goals (try by_cases hp : p = "")
    all_goals (try simp only [hb s hs, Bool.false_or])
    all_goals (try simp only [hb p hp, Bool.false_or])
    all_goals
      simp_all [List.filter_filter, Bool.and_comm, Bool.and_left_comm,
        List.filter_true, hb]
  · unfold serviceLookup
    dsimp only
    rw [List.length_map, List.length_take]
    omega
  · intro h150
    unfold serviceLookup
    simp [strTruthy, List.length_take]
    omega

/-- Witness for C9: 150 distinct identity-keyed rows, empty filter, exactly
100 results. -/
theorem c9_conjunctive_inclusive_cap_witness :
    (serviceLookup ⟨none, none, none⟩ bigTable).length = 100 :=
  (c9_conjunctive_inclusive_cap ⟨none, none, none⟩ bigTable).2.2 (by simp [bigTable])

-- ---------------------------------------------------------------------------
--  C10
-- ---------------------------------------------------------------------------

/-- C10: supplying any string filter field as the empty string behaves
exactly as omitting it (the guards are truthiness checks), for all five
string fields across both lookups; `maxPriceSats` however is applied
whenever it is a number, so `maxPriceSats = 0` keeps only rows with
`pricingSats ≤ 0` — on a table holding a 5-sat service it returns nothing,
while the empty filter returns that row. -/
theorem c10_empty_string_vs_zero_price :
    (∀ (q : AgentLookupQuery) (t : List AgentRow),
      agentLookup ⟨some "", q.name, q.capability⟩ t =
        agentLookup ⟨none, q.name, q.capability⟩ t) ∧
    (∀ (q : AgentLookupQuery) (t : List AgentRow),
      agentLookup ⟨q.identityKey, some "", q.capability⟩ t =
        agentLookup ⟨q.identityKey, none, q.capability⟩ t) ∧
    (∀ (q : AgentLookupQuery) (t : List AgentRow),
      agentLookup ⟨q.identityKey, q.name, some ""⟩ t =
        agentLookup ⟨q.identityKey, q.name, none⟩ t) ∧
    (∀ (q : ServiceLookupQuery) (t : List ServiceRow),
      serviceLookup ⟨some "", q.maxPriceSats, q.provider⟩ t =
        serviceLookup ⟨none, q.maxPriceSats, q.provider⟩ t) ∧
    (∀ (q : ServiceLookupQuery) (t : List ServiceRow),
      serviceLookup ⟨q.serviceType, q.maxPriceSats, some ""⟩ t =
        serviceLookup ⟨q.serviceType, q.maxPriceSats, none⟩ t) ∧
    (∀ t : List ServiceRow,
      serviceLookup ⟨none, some 0, none⟩ t =
        ((t.filter (fun r =>
            match r.pricingSats with
            | some p => decide (p ≤ 0)
            | none => false)).take 100).map (fun r => (r.txid, r.outputIndex))) ∧
    serviceLookup ⟨none, some 0, none⟩ [rowP5] = [] ∧
    serviceLookup ⟨none, none, none⟩ [rowP5] = [("t", 0)] :=
  ⟨fun _ _ => rfl, fun _ _ => rfl, fun _ _ => rfl, fun _ _ => rfl, fun _ _ => rfl,
    fun _ => rfl, rfl, rfl⟩

-- ---------------------------------------------------------------------------
--  C3: lifecycle lemmas
-- ---------------------------------------------------------------------------

theorem hasKeyB_upsertAgent (t : List AgentRow) (row : AgentRow) (txid : String) (idx : Nat) :
    hasKeyB (upsertAgent t row) txid idx =
      ((row.txid == txid && row.outputIndex == idx) || hasKeyB t txid idx) := by
  unfold upsertAgent hasKeyB
  split
  · rename_i hex
    rw [List.any_map]
    have hpoint : ((fun r : AgentRow => r.txid == txid && r.outputIndex == idx) ∘
        (fun r : AgentRow =>
          if r.txid == row.txid && r.outputIndex == row.outputIndex then row else r)) =
        (fun r : AgentRow => r.txid == txid && r.outputIndex == idx) := by
      funext r
      simp only [Function.comp]
      split
      · rename_i hc
        simp only [Bool.and_eq_true, beq_iff_eq] at hc
        rw [hc.1, hc.2]
      · rfl
    rw [hpoint]
    by_cases hrm : (row.txid == txid && row.outputIndex == idx) = true
    · obtain ⟨r0, hm0, hc0⟩ := List.any_eq_true.1 hex
      simp only [Bool.and_eq_true, beq_iff_eq] at hrm hc0
      have : t.any (fun r => r.txid == txid && r.outputIndex == idx) = true :=
        List.any_eq_true.2 ⟨r0, hm0, by
          simp only [Bool.and_eq_true, beq_iff_eq]
          exact ⟨hc0.1.trans hrm.1, hc0.2.trans hrm.2⟩⟩
      simp [this, hrm.1, hrm.2]
    · simp only [Bool.not_eq_true] at hrm
      rw [hrm, Bool.false_or]
  · simp [List.any_append, Bool.or_comm]

theorem hasKeyB_delete (t : List AgentRow) (txid' txid : String) (idx' idx : Nat) :
    hasKeyB (t.filter (fun r => !(r.txid == txid' && r.outputIndex == idx'))) txid idx =
      (!(txid' == txid && idx' == idx) && hasKeyB t txid idx) := by
  unfold hasKeyB
  by_cases hk : (txid' == txid && idx' == idx) = true
  · simp only [Bool.and_eq_true, beq_iff_eq] at hk
    rw [hk.1, hk.2] at *
    simp only [beq_self_eq_true, Bool.and_self, Bool.not_true, Bool.false_and]
    rw [List.any_eq_false]
    intro r hr
    have h2 := (List.mem_filter.1 hr).2
    simp only [Bool.not_eq_true'] at h2
    simp [h2]
  · simp only [Bool.not_eq_true] at hk
    rw [hk, Bool.not_false, Bool.true_and]
    simp only [Bool.and_eq_false_iff] at hk
    rw [Bool.eq_iff_iff, List.any_eq_true, List.any_eq_true]
    constructor
    · rintro ⟨r, hr, hpr⟩
      exact ⟨r, (List.mem_filter.1 hr).1, hpr⟩
    · rintro ⟨r, hr, hpr⟩
      refine ⟨r, List.mem_filter.2 ⟨hr, ?_⟩, hpr⟩
      simp only [Bool.and_eq_true, beq_iff_eq] at hpr
      simp only [Bool.not_eq_true', Bool.and_eq_false_iff]
      rcases hk with hk | hk
      · left
        simp only [beq_eq_false_iff_ne, ne_eq] at hk ⊢
        rw [hpr.1]
        intro hc
        exact hk hc.symm
      · right
        simp only [beq_eq_false_iff_ne, ne_eq] at hk ⊢
        rw [hpr.2]
        intro hc
        exact hk hc.symm

theorem agentParsedRow_key (txid : String) (idx : Nat) (s : Script) (row : AgentRow)
    (h : agentParsedRow txid idx s = some row) :
    row.txid = txid ∧ row.outputIndex = idx := by
  unfold agentParsedRow at h
  split at h <;> try exact Option.noConfusion h
  rename_i payload hp
  unfold agentRowOfPayload at h
  split at h <;> try exact Option.noConfusion h
  simp only [Option.some.injEq] at h
  subst h
  exact ⟨rfl, rfl⟩

/-- Per-event key-presence update: an event makes the key present exactly when
it is a fully successful admission of that key, keeps it present unless it
removes it, and never creates it otherwise. -/
theorem hasKeyB_agentStep (t : List AgentRow) (e : AgentEvent) (txid : String) (idx : Nat) :
    hasKeyB (agentStep t e) txid idx =
      (admitOkB txid idx e || (hasKeyB t txid idx && !removesKeyB txid idx e)) := by
  cases e with
  | admitted mode topic tx i s =>
    simp only [agentStep, agentOutputAdmittedByTopic, admitOkB, removesKeyB]
    by_cases hm : mode = "locking-script"
    · subst hm
      by_cases ht : topic = TOPICS_IDENTITY
      · subst ht
        rw [if_neg (by simp), if_neg (by simp)]
        cases hrow : agentParsedRow tx i s with
        | none => simp [hrow]
        | some row =>
          obtain ⟨hrt, hri⟩ := agentParsedRow_key tx i s row hrow
          rw [hasKeyB_upsertAgent, hrt, hri]
          simp [hrow]
      · rw [if_neg (by simp), if_pos (by simpa using ht)]
        have : (topic == TOPICS_IDENTITY) = false := by
          simpa using ht
        simp [this]
    · rw [if_pos (by simpa using hm)]
      have : (mode == "locking-script") = false := by
        simpa using hm
      simp [this]
  | spent topic tx i =>
    simp only [agentStep, agentOutputSpent, admitOkB, removesKeyB]
    by_cases ht : topic = TOPICS_IDENTITY
    · subst ht
      rw [if_neg (by simp)]
      rw [hasKeyB_delete]
      simp only [beq_self_eq_true, Bool.true_and, Bool.false_or]
      rw [Bool.and_comm]
    · rw [if_pos (by simpa using ht)]
      have : (topic == TOPICS_IDENTITY) = false := by
        simpa using ht
      simp [this]
  | evicted tx i =>
    simp only [agentStep, agentOutputEvicted, admitOkB, removesKeyB]
    rw [hasKeyB_delete]
    simp only [Bool.false_or]
    rw [Bool.and_comm]

/-- Folding the callbacks: the key is present afterwards exactly when some
fully successful admission of it is not followed by a removal, or it was
present before and no event removes it. -/
theorem hasKeyB_foldl (evs : List AgentEvent) (t : List AgentRow) (txid : String) (idx : Nat) :
    hasKeyB (evs.foldl agentStep t) txid idx =
      (liveB txid idx evs ||
        (hasKeyB t txid idx && evs.all (fun e => !removesKeyB txid idx e))) := by
  induction evs generalizing t with
  | nil => simp [liveB]
  | cons e rest ih =>
    rw [List.foldl_cons, ih (agentStep t e), hasKeyB_agentStep]
    cases hA : admitOkB txid idx e <;> cases hR : removesKeyB txid idx e <;>
      cases hK : hasKeyB t txid idx <;> cases hL : liveB txid idx rest <;>
      cases hAll : rest.all (fun e' => !removesKeyB txid idx e') <;>
      simp [liveB, hA, hR, hK, hL, hAll]

/-- `liveB` says exactly: the trace splits around an admission of the key
with no later removal. -/
theorem liveB_iff (txid : String) (idx : Nat) (evs : List AgentEvent) :
    liveB txid idx evs = true ↔
      ∃ pre e post, evs = pre ++ e :: post ∧ admitOkB txid idx e = true ∧
        ∀ e' ∈ post, removesKeyB txid idx e' = false := by
  induction evs with
  | nil => simp [liveB]
  | cons e rest ih =>
    rw [liveB]
    simp only [Bool.or_eq_true, Bool.and_eq_true, List.all_eq_true]
    constructor
    · rintro (⟨hA, hall⟩ | hrest)
      · exact ⟨[], e, rest, rfl, hA, fun e' he' => by simpa using hall e' he'⟩
      · obtain ⟨pre, e', post, heq, hA, hpost⟩ := ih.1 hrest
        exact ⟨e :: pre, e', post, by rw [heq, List.cons_append], hA, hpost⟩
    · rintro ⟨pre, e', post, heq, hA, hpost⟩
      cases pre with
      | nil =>
        simp only [List.nil_append, List.cons.injEq] at heq
        left
        refine ⟨heq.1 ▸ hA, fun x hx => ?_⟩
        simp [hpost x (heq.2 ▸ hx)]
      | cons p pre' =>
        simp only [List.cons_append, List.cons.injEq] at heq
        right
        exact ih.2 ⟨pre', e', post, heq.2, hA, hpost⟩

-- ---------------------------------------------------------------------------
--  C3
-- ---------------------------------------------------------------------------

/-- C3: starting from the empty agent table, a row keyed `(txid, idx)` exists
after a sequence of callbacks iff some fully successful admission of that key
(locking-script mode, identity topic, decodable payload, insertable row) is
not followed by a spend notification (on the identity topic) or an eviction
of the same key.  `outputSpent` (with the matching topic) and `outputEvicted`
delete exactly the rows with that key and are therefore identical in effect,
no-ops when the key is absent, and leave all other rows unchanged.  On the
concrete lifecycle, admission of `(tx1,0)` makes
`lookup({identityKey: K})` return `[(tx1,0)]`, and after `onSpent(tx1,0)` the
same lookup returns `[]`. -/
theorem c3_catalog_lifecycle :
    (∀ (evs : List AgentEvent) (txid : String) (idx : Nat),
      hasKeyB (agentExec evs) txid idx = true ↔
        ∃ pre e post, evs = pre ++ e :: post ∧ admitOkB txid idx e = true ∧
          ∀ e' ∈ post, removesKeyB txid idx e' = false) ∧
    (∀ (t : List AgentRow) (topic txid : String) (idx : Nat),
      topic = TOPICS_IDENTITY →
        agentOutputSpent t topic txid idx = agentOutputEvicted t txid idx) ∧
    (∀ (t : List AgentRow) (txid : String) (idx : Nat),
      hasKeyB t txid idx = false →
        agentOutputEvicted t txid idx = t ∧
        agentOutputSpent t TOPICS_IDENTITY txid idx = t) ∧
    (∀ (t : List AgentRow) (txid : String) (idx : Nat) (r : AgentRow),
      ¬(r.txid = txid ∧ r.outputIndex = idx) →
        (r ∈ agentOutputEvicted t txid idx ↔ r ∈ t)) ∧
    agentLookup ⟨some ikA, none, none⟩ (agentExec [adEvA]) = [("tx1", 0)] ∧
    agentLookup ⟨some ikA, none, none⟩ (agentExec [adEvA, spEvA]) = [] := by
  refine ⟨?_, ?_, ?_, ?_, rfl, rfl⟩
  · intro evs txid idx
    unfold agentExec
    rw [hasKeyB_foldl]
    have h0 : hasKeyB [] txid idx = false := rfl
    rw [h0, Bool.false_and, Bool.or_false]
    exact liveB_iff txid idx evs
  · intro t topic txid idx htopic
    subst htopic
    simp [agentOutputSpent, agentOutputEvicted]
  · intro t txid idx habs
    have hall : ∀ r ∈ t, (!(r.txid == txid && r.outputIndex == idx)) = true := by
      intro r hr
      have h1 : hasKeyB t txid idx = false := habs
      unfold hasKeyB at h1
      rw [List.any_eq_false] at h1
      have h2 := h1 r hr
      simp only [Bool.not_eq_true] at h2
      simp [h2]
    constructor
    · exact List.filter_eq_self.2 hall
    · unfold agentOutputSpent
      rw [if_neg (by simp)]
      exact List.filter_eq_self.2 hall
  · intro t txid idx r hne
    unfold agentOutputEvicted
    rw [List.mem_filter]
    constructor
    · exact fun h => h.1
    · intro h
      refine ⟨h, ?_⟩
      simp only [Bool.not_eq_true', Bool.and_eq_false_iff, beq_eq_false_iff_ne, ne_eq]
      by_cases h1 : r.txid = txid
      · exact Or.inr (fun h2 => hne ⟨h1, h2⟩)
      · exact Or.inl h1

/-- Witness for C3: on a concrete one-row table, spend and eviction coincide;
on the empty table both are no-ops. -/
theorem c3_catalog_lifecycle_witness :
    agentOutputSpent (agentExec [adEvA]) TOPICS_IDENTITY "tx1" 0 =
      agentOutputEvicted (agentExec [adEvA]) "tx1" 0 ∧
    agentOutputEvicted [] "tx9" 7 = [] :=
  ⟨c3_catalog_lifecycle.2.1 (agentExec [adEvA]) TOPICS_IDENTITY "tx1" 0 rfl,
    (c3_catalog_lifecycle.2.2.1 [] "tx9" 7 rfl).1⟩

end Clawdbot
